import Mathlib

/-!
Shallow embedding of `scripts/update_snowtams.py` (SNOWTAM dashboard updater).

The script classifies free-text NOTAMs as winter-runway-relevant, scores their
severity from regex signals, and diffs a per-airport content fingerprint against
the previous snapshot.  Text is modelled as a list of characters; the four
module-level regular expressions of the script (`SNOW_HINT_RE`,
`RUNWAY_CLOSED_RE`, `BRAKING_RE`, `RWYCC_RE`) and the ad-hoc searches inside
`is_snowtam_like` and `severity_from_text` are embedded as executable scanners
with Python `re.search` semantics (leftmost match, ordered alternation, greedy
quantifiers with backtracking).  Character classes are modelled at the ASCII
level: a word character for `\b` is `[A-Za-z0-9_]`, whitespace for `\s` is
the six ASCII whitespace characters, and `re.IGNORECASE` is modelled by
uppercasing the subject text (NOTAM texts are ASCII by convention).
-/

namespace Snowtam

abbrev Txt := List Char

/-- ASCII whitespace, the characters matched by `\s` in the scripts patterns. -/
def isWs (c : Char) : Bool :=
  c == ' ' || c == '\t' || c == '\n' || c == '\r' || c == '\x0b' || c == '\x0c'

/-- Word characters as used by the `\b` anchors of the scripts patterns. -/
def isWordChar (c : Char) : Bool := c.isAlphanum || c == '_'

/-- Whether the character just before the current scan position is a word
character; `none` stands for the start of the subject text. -/
def prevIsWord : Option Char → Bool
  | none => false
  | some c => isWordChar c

/-- Whether the character at the current scan position is a word character;
an empty remainder stands for the end of the subject text. -/
def headIsWord : Txt → Bool
  | [] => false
  | c :: _ => isWordChar c

/-- Subject text of a case-insensitive search: the character list of the
string, uppercased (models `re.IGNORECASE` against uppercase patterns). -/
def upData (s : String) : Txt := s.data.map Char.toUpper

/-- Match a literal pattern at the current position, returning the remainder. -/
def stripLit : Txt → Txt → Option Txt
  | [], cs => some cs
  | _ :: _, [] => none
  | p :: ps, c :: cs => if c == p then stripLit ps cs else none

/-- Match the literal word `w` at the current position followed by a `\b`
boundary (the next character, if any, is not a word character). -/
def wordLitHere (w : String) (cs : Txt) : Bool :=
  match stripLit w.data cs with
  | some rest => !headIsWord rest
  | none => false

/-- Match `\s+` at the current position: at least one whitespace character,
consuming the maximal whitespace run (the following pattern tokens in the
script always start with a non-whitespace character). -/
def stripWs1 : Txt → Option Txt
  | [] => none
  | c :: cs => if isWs c then some (cs.dropWhile isWs) else none

/-- Match `A\s+B\b` at the current position, for the two-word alternatives
`COMPACTED SNOW`, `WET SNOW`, `DRY SNOW` of `SNOW_HINT_RE`. -/
def twoWordHere (a b : String) (cs : Txt) : Bool :=
  match stripLit a.data cs with
  | some rest =>
    match stripWs1 rest with
    | some rest2 => wordLitHere b rest2
    | none => false
  | none => false

/-- Scan the subject text left to right, trying a positional matcher at every
position (including the end position), as `re.search` does. -/
def scanAny (f : Option Char → Txt → Bool) : Option Char → Txt → Bool
  | prev, [] => f prev []
  | prev, c :: cs => f prev (c :: cs) || scanAny f (some c) cs

/-- Leftmost-match scan returning the payload of the first position where the
positional matcher succeeds, as `re.search` does. -/
def scanFirst {α : Type} (f : Option Char → Txt → Option α) :
    Option Char → Txt → Option α
  | prev, [] => f prev []
  | prev, c :: cs =>
    match f prev (c :: cs) with
    | some r => some r
    | none => scanFirst f (some c) cs

/-- Positional matcher for `SNOW_HINT_RE`:
`\b(SNOWTAM|RWYCC|RCR|BRAKING|SLUSH|ICE|SNOW|COMPACTED\s+SNOW|WET\s+SNOW|DRY\s+SNOW|MU|CONTAMIN)\b`. -/
def snowHintAt (prev : Option Char) (cs : Txt) : Bool :=
  !prevIsWord prev &&
    (wordLitHere "SNOWTAM" cs || wordLitHere "RWYCC" cs || wordLitHere "RCR" cs ||
     wordLitHere "BRAKING" cs || wordLitHere "SLUSH" cs || wordLitHere "ICE" cs ||
     wordLitHere "SNOW" cs || twoWordHere "COMPACTED" "SNOW" cs ||
     twoWordHere "WET" "SNOW" cs || twoWordHere "DRY" "SNOW" cs ||
     wordLitHere "MU" cs || wordLitHere "CONTAMIN" cs)

/-- Search for `SNOW_HINT_RE` anywhere in the text. -/
def matchSnowHint (s : String) : Bool := scanAny snowHintAt none (upData s)

/-- Match `\b(CLSD|CLOSED)\b` at the current position. -/
def closedWordAt (prev : Option Char) (cs : Txt) : Bool :=
  !prevIsWord prev && (wordLitHere "CLSD" cs || wordLitHere "CLOSED" cs)

/-- Match `.{0,24}\b(CLSD|CLOSED)\b`: skip up to `fuel` characters other than
a newline (`.` does not match `\n` without `re.DOTALL`), then the closed word. -/
def dotWindow : Nat → Option Char → Txt → Bool
  | 0, prev, cs => closedWordAt prev cs
  | fuel + 1, prev, cs =>
    closedWordAt prev cs ||
      match cs with
      | c :: cs2 => !(c == '\n') && dotWindow fuel (some c) cs2
      | [] => false

/-- Positional matcher for `RUNWAY_CLOSED_RE`:
`\b(RWY|RUNWAY).{0,24}\b(CLSD|CLOSED)\b|\bAERODROME\s+CLSD\b`. -/
def runwayClosedAt (prev : Option Char) (cs : Txt) : Bool :=
  (!prevIsWord prev &&
    ((match stripLit "RWY".data cs with
      | some rest => dotWindow 24 (some 'Y') rest
      | none => false) ||
     (match stripLit "RUNWAY".data cs with
      | some rest => dotWindow 24 (some 'Y') rest
      | none => false))) ||
  (!prevIsWord prev &&
    (match stripLit "AERODROME".data cs with
     | some rest =>
       match stripWs1 rest with
       | some rest2 => wordLitHere "CLSD" rest2
       | none => false
     | none => false))

/-- Search for `RUNWAY_CLOSED_RE` anywhere in the text. -/
def matchRunwayClosed (s : String) : Bool := scanAny runwayClosedAt none (upData s)

/-- Match `(GOOD|MEDIUM|POOR)\b` at the current position, returning the word
(group 2 of `BRAKING_RE`). -/
def brakingWordHere (cs : Txt) : Option String :=
  if wordLitHere "GOOD" cs then some "GOOD"
  else if wordLitHere "MEDIUM" cs then some "MEDIUM"
  else if wordLitHere "POOR" cs then some "POOR"
  else none

/-- Positional matcher for `BRAKING_RE`:
`\bBRAKING\s+(ACTION\s+)?(GOOD|MEDIUM|POOR)\b`.  The optional `ACTION\s+`
group is tried first and the bare word is the backtracking fallback. -/
def brakingAt (prev : Option Char) (cs : Txt) : Option String :=
  if prevIsWord prev then none
  else
    match stripLit "BRAKING".data cs with
    | none => none
    | some rest =>
      match stripWs1 rest with
      | none => none
      | some rest2 =>
        match stripLit "ACTION".data rest2 with
        | some rest3 =>
          match stripWs1 rest3 with
          | some rest4 =>
            match brakingWordHere rest4 with
            | some w => some w
            | none => brakingWordHere rest2
          | none => brakingWordHere rest2
        | none => brakingWordHere rest2

/-- Leftmost `BRAKING_RE` search; returns group 2 of the first match. -/
def matchBraking (s : String) : Option String := scanFirst brakingAt none (upData s)

/-- Numeric value of an ASCII digit character. -/
def digitVal (c : Char) : Nat := c.toNat - 48

/-- Match one repetition `\s*[/\s]\s*[0-9]` of the `RWYCC_RE` digit group.
The separator must be a nonempty run of whitespace or slash characters, with
at most one slash (two slashes cannot be produced by `\s*[/\s]\s*`), ending
right before a digit. -/
def sepDigit (cs : Txt) : Option (Nat × Txt) :=
  let run := cs.takeWhile (fun c => isWs c || c == '/')
  let rest := cs.dropWhile (fun c => isWs c || c == '/')
  if run.isEmpty then none
  else if 2 ≤ run.countP (fun c => c == '/') then none
  else
    match rest with
    | c :: cs2 => if c.isDigit then some (digitVal c, cs2) else none
    | [] => none

/-- Greedy repetition `(?:\s*[/\s]\s*[0-9]){0,fuel}` of `RWYCC_RE`. -/
def moreDigits : Nat → Txt → List Nat
  | 0, _ => []
  | fuel + 1, cs =>
    match sepDigit cs with
    | some (d, rest) => d :: moreDigits fuel rest
    | none => []

/-- Match `[^0-9]{0,fuel}` followed by a digit: skip up to `fuel` non-digit
characters and stop at the first digit (the greedy class backtracks to the
unique viable length because the next pattern token is `[0-9]`). -/
def afterNonDigits : Nat → Txt → Option Txt
  | _, [] => none
  | 0, c :: cs => if c.isDigit then some (c :: cs) else none
  | fuel + 1, c :: cs => if c.isDigit then some (c :: cs) else afterNonDigits fuel cs

/-- Positional matcher for `RWYCC_RE`:
`\bRWYCC\b[^0-9]{0,6}([0-9](?:\s*[/\s]\s*[0-9]){0,5})`, returning the digit
values of group 1 (splitting the captured group on `[/\s]+` yields exactly
these single-digit tokens, all of which pass `isdigit`). -/
def rwyccAt (prev : Option Char) (cs : Txt) : Option (List Nat) :=
  if prevIsWord prev then none
  else
    match stripLit "RWYCC".data cs with
    | none => none
    | some rest =>
      if headIsWord rest then none
      else
        match afterNonDigits 6 rest with
        | some (c :: rest2) => some (digitVal c :: moreDigits 5 rest2)
        | _ => none

/-- Embedding of `extract_rwycc_values`: leftmost `RWYCC_RE` match, parse the
digits of group 1, keep the values in the range 0 to 6. -/
def extract_rwycc_values (text : String) : List Nat :=
  match scanFirst rwyccAt none (upData text) with
  | some vals => vals.filter (fun v => v ≤ 6)
  | none => []

/-- Whole-word case-insensitive search `re.search(r"\b" + w + r"\b", t, re.IGNORECASE)`. -/
def wordSearch (w : String) (s : String) : Bool :=
  scanAny (fun prev cs => !prevIsWord prev && wordLitHere w cs) none (upData s)

/-- Word-start case-insensitive search `\bw` with no trailing boundary (used
for the `CONTAMIN` stem in the context check of `is_snowtam_like`). -/
def stemSearch (w : String) (s : String) : Bool :=
  scanAny (fun prev cs => !prevIsWord prev && (stripLit w.data cs).isSome) none (upData s)

/-- Context search of `is_snowtam_like`:
`\bRWY\b|\bRUNWAY\b|\bR(?:WY)?CC\b|\bBRAKING\b|\bCONTAMIN`. -/
def matchContext (s : String) : Bool :=
  wordSearch "RWY" s || wordSearch "RUNWAY" s || wordSearch "RCC" s ||
    wordSearch "RWYCC" s || wordSearch "BRAKING" s || stemSearch "CONTAMIN" s

/-- Embedding of `is_snowtam_like`. -/
def is_snowtam_like (notam_text : String) : Bool :=
  if notam_text.isEmpty then false
  else if matchSnowHint notam_text then
    if matchContext notam_text then true
    else if wordSearch "SNOWTAM" notam_text then true
    else false
  else false

/-- Severity vocabulary of the script; `gray` is only used for fetch-failure
records. -/
inductive Sev where
  | green
  | yellow
  | orange
  | red
  | gray
deriving DecidableEq, Repr

/-- Evidence record built by `severity_from_text`.  The `rwycc` field holds
the extracted condition codes, `braking` the braking-action word, `closed`
the closure flag and `keywords` the fallback keyword list. -/
structure Evidence where
  rwycc : Option (List Nat)
  braking : Option String
  closed : Bool
  keywords : List String
deriving DecidableEq, Repr

/-- Keyword collection of the fallback branch of `severity_from_text`. -/
def fallbackKeywords (t : String) : List String :=
  ["SNOWTAM", "RWYCC", "RCR", "BRAKING", "SLUSH", "ICE", "SNOW", "MU", "CONTAMIN"].filter
    (fun k => wordSearch k t)

/-- Keyword-only fallback of `severity_from_text` (the code past the braking
check): collect keywords, then POOR/UNUSABLE/UNSAFE gives red,
MEDIUM/MODERATE gives orange, otherwise yellow.  The `braking` argument
carries the evidence value accumulated before the fallback is reached. -/
def fallbackSeverity (t : String) (braking : Option String) : Sev × Evidence :=
  let ev : Evidence :=
    { rwycc := none, braking := braking, closed := false, keywords := fallbackKeywords t }
  if wordSearch "POOR" t || wordSearch "UNUSABLE" t || wordSearch "UNSAFE" t then
    (Sev.red, ev)
  else if wordSearch "MEDIUM" t || wordSearch "MODERATE" t then
    (Sev.orange, ev)
  else
    (Sev.yellow, ev)

/-- Embedding of `severity_from_text`.  The evidence mutations of the Python
dict are modelled by constructing the record reached at each return point. -/
def severity_from_text (text : String) : Sev × Evidence :=
  if matchRunwayClosed text then
    (Sev.red, { rwycc := none, braking := none, closed := true, keywords := [] })
  else
    match extract_rwycc_values text with
    | v :: vs =>
      let ev : Evidence :=
        { rwycc := some (v :: vs), braking := none, closed := false, keywords := [] }
      let mn := vs.foldl Nat.min v
      if mn ≤ 1 then (Sev.red, ev)
      else if mn ≤ 3 then (Sev.orange, ev)
      else (Sev.yellow, ev)
    | [] =>
      match matchBraking text with
      | some b =>
        let ev : Evidence :=
          { rwycc := none, braking := some b, closed := false, keywords := [] }
        if b = "POOR" then (Sev.red, ev)
        else if b = "MEDIUM" then (Sev.orange, ev)
        else if b = "GOOD" then (Sev.yellow, ev)
        else fallbackSeverity text (some b)
      | none => fallbackSeverity text none

/-! ## Aggregator and snapshot differ (`build_status`)

`build_status` is modelled as a pure function of: a hash function standing for
`sha1_text` (the claims do not depend on the hash values, so it is a
parameter), the previous snapshot mapping, the formatted run timestamp, the
per-batch fetch outcomes (indexed by batch position, an `Except` standing for
the try/except around `fetch_notams_for_batch`), the batch size, and the
airport list.  The result is the `airports` mapping of the output snapshot,
as a function from identifier to optional status record (Python dict
lookup). -/

/-- Structured interpretation attached to a NOTAM by the upstream API. -/
structure Interp where
  excerpt : Option String
  description : Option String
deriving DecidableEq, Repr

/-- Raw NOTAM object as consumed by `build_status`; absent dict keys are
`none` (the script coalesces them with `or`). -/
structure Notam where
  icao_code : Option String
  icao_message : Option String
  interpretation : Option Interp
deriving DecidableEq, Repr

/-- Embedding of the dataclass `SnowItem`. -/
structure SnowItem where
  raw : String
  excerpt : String
  description : String
deriving DecidableEq, Repr

/-- Previous-snapshot entry for one airport: the fields of the prior record
that `build_status` reads (both may be absent). -/
structure PrevRec where
  hash : Option String
  last_change_utc : Option String
deriving DecidableEq, Repr

/-- Output status record for one airport.  In the fetch-failure branch the
Python dict carries no `evidence` key; that is modelled as `evidence = none`. -/
structure AirportStatus where
  loaded : Bool
  has_snowtam : Bool
  severity : Sev
  changed : Bool
  last_change_utc : Option String
  error : Option String
  items : List SnowItem
  evidence : Option Evidence
  hash : Option String
deriving DecidableEq, Repr

/-- Lookup of `prev.get(icao, {}).get("hash")`. -/
def prevHash (prev : String → Option PrevRec) (icao : String) : Option String :=
  match prev icao with
  | some r => r.hash
  | none => none

/-- Lookup of `prev.get(icao, {}).get("last_change_utc")`. -/
def prevLast (prev : String → Option PrevRec) (icao : String) : Option String :=
  match prev icao with
  | some r => r.last_change_utc
  | none => none

/-- Severity rank used by the worst-of reduction:
`order = {"green":0,"yellow":1,"orange":2,"red":3}` with `.get(sev, 0)`
defaulting to 0 for anything else. -/
def sevOrder : Sev → Nat
  | Sev.green => 0
  | Sev.yellow => 1
  | Sev.orange => 2
  | Sev.red => 3
  | Sev.gray => 0

/-- Worst-of reduction step of the aggregation loop: the first scored notice
replaces the initial green, afterwards a strictly higher rank wins and ties
keep the earlier evidence. -/
def foldSev : Sev × Option Evidence → Sev × Evidence → Sev × Option Evidence
  | (worst, wev), (sev, ev) =>
    if worst = Sev.green then (sev, some ev)
    else if sevOrder worst < sevOrder sev then (sev, some ev)
    else (worst, wev)

/-- Python `(n.get("icao_code") or "").strip().upper()`, with ASCII
whitespace stripping and ASCII uppercasing. -/
def normCode (n : Notam) : String :=
  String.mk
    (((((n.icao_code.getD "").data.dropWhile isWs).reverse.dropWhile isWs).reverse).map
      Char.toUpper)

/-- Body of the per-notam loop of `build_status`: skip notices that are not
SNOWTAM-like, otherwise score `raw + "\n" + description`, fold the severity
and append the `SnowItem`. -/
def snowStep (acc : List SnowItem × Sev × Option Evidence) (n : Notam) :
    List SnowItem × Sev × Option Evidence :=
  let raw := n.icao_message.getD ""
  if is_snowtam_like raw then
    let interp := n.interpretation.getD { excerpt := none, description := none }
    let excerpt := interp.excerpt.getD ""
    let desc := interp.description.getD ""
    let se := severity_from_text (raw ++ "\n" ++ desc)
    (acc.1 ++ [{ raw := raw, excerpt := excerpt, description := desc }], foldSev acc.2 se)
  else acc

/-- Fingerprint blob: `"\n\n---\n\n".join(raw + "\n" + excerpt + "\n" + description)`. -/
def blobOf (items : List SnowItem) : String :=
  String.intercalate "\n\n---\n\n"
    (items.map (fun it => it.raw ++ "\n" ++ it.excerpt ++ "\n" ++ it.description))

/-- Change flag of the differ:
`changed = (old_hash is not None and old_hash != new_hash)`. -/
def changedOf (old : Option String) (newHash : String) : Bool :=
  old.isSome && (old != some newHash)

/-- Status record assembled for one airport of a successfully fetched batch. -/
def processAirport (sha1 : String → String) (prev : String → Option PrevRec)
    (nowStr : String) (notams : List Notam) (icao : String) : AirportStatus :=
  let mine := notams.filter (fun n => normCode n == icao)
  let acc := mine.foldl snowStep ([], Sev.green, none)
  let snow_items := acc.1
  let has_snow := !snow_items.isEmpty
  let worst_sev := if has_snow then acc.2.1 else Sev.green
  let new_hash := if has_snow then sha1 (blobOf snow_items) else "NO_SNOWTAM"
  let changed := changedOf (prevHash prev icao) new_hash
  { loaded := true
    has_snowtam := has_snow
    severity := worst_sev
    changed := changed
    last_change_utc := if changed then some nowStr else prevLast prev icao
    error := none
    items := snow_items
    evidence := acc.2.2
    hash := some new_hash }

/-- Degraded status record assigned to every airport of a batch whose fetch
raised: gray severity, no change, fingerprint and last-change carried forward
from the previous snapshot, error message attached. -/
def errorStatus (prev : String → Option PrevRec) (err : String) (icao : String) :
    AirportStatus :=
  { loaded := true
    has_snowtam := false
    severity := Sev.gray
    changed := false
    last_change_utc := prevLast prev icao
    error := some err
    items := []
    evidence := none
    hash := prevHash prev icao }

/-- Dict update `airports_out[icao] = st`. -/
def updOut (m : String → Option AirportStatus) (icao : String) (st : AirportStatus) :
    String → Option AirportStatus :=
  fun q => if q = icao then some st else m q

/-- Processing of one batch: on fetch failure every airport of the batch gets
the degraded record, otherwise every airport gets its aggregated record. -/
def processBatch (sha1 : String → String) (prev : String → Option PrevRec)
    (nowStr : String) (res : Except String (List Notam)) (batch : List String)
    (out : String → Option AirportStatus) : String → Option AirportStatus :=
  match res with
  | Except.error err =>
    batch.foldl (fun m icao => updOut m icao (errorStatus prev err icao)) out
  | Except.ok notams =>
    batch.foldl (fun m icao => updOut m icao (processAirport sha1 prev nowStr notams icao)) out

/-- Python `chunk`: `[lst[i:i+n] for i in range(0, len(lst), n)]`, written
with an explicit fuel bounded by the list length so that the recursion is
structural (each step with positive `n` consumes at least one element).
A zero `n` makes the Python `range` raise; that invalid configuration is
mapped to the empty batch list. -/
def chunkAux : Nat → List String → Nat → List (List String)
  | 0, _, _ => []
  | Nat.succ _, [], _ => []
  | Nat.succ _, _ :: _, 0 => []
  | Nat.succ fuel, a :: l, Nat.succ m =>
    List.take (m + 1) (a :: l) :: chunkAux fuel (List.drop m l) (m + 1)

/-- Embedding of `chunk`. -/
def chunk (lst : List String) (n : Nat) : List (List String) :=
  chunkAux lst.length lst n

/-- Main loop of `build_status` over the batches, threading the output
mapping; `i` is the index used to look up the fetch outcome of each batch. -/
def buildFrom (sha1 : String → String) (prev : String → Option PrevRec)
    (nowStr : String) (fetchRes : Nat → Except String (List Notam)) :
    Nat → List (List String) → (String → Option AirportStatus) →
    String → Option AirportStatus
  | _, [], out => out
  | i, b :: bs, out =>
    buildFrom sha1 prev nowStr fetchRes (i + 1) bs
      (processBatch sha1 prev nowStr (fetchRes i) b out)

/-- Embedding of `build_status`: the `airports` mapping of the snapshot it
returns, given the previous snapshot, the run timestamp and the per-batch
fetch outcomes. -/
def build_status (sha1 : String → String) (prev : String → Option PrevRec)
    (nowStr : String) (fetchRes : Nat → Except String (List Notam))
    (batchSize : Nat) (icao_list : List String) : String → Option AirportStatus :=
  buildFrom sha1 prev nowStr fetchRes 0 (chunk icao_list batchSize) (fun _ => none)

/-! ## Helper lemmas -/

theorem foldl_updOut (f : String → AirportStatus) (batch : List String) :
    ∀ (out : String → Option AirportStatus) (q : String),
      batch.foldl (fun m icao => updOut m icao (f icao)) out q
        = if q ∈ batch then some (f q) else out q := by
  induction batch with
  | nil => intro out q; simp
  | cons a rest ih =>
    intro out q
    simp only [List.foldl_cons, List.mem_cons]
    rw [ih]
    by_cases hq : q ∈ rest
    · simp [hq]
    · by_cases hqa : q = a
      · subst hqa; simp [hq, updOut]
      · simp [hq, hqa, updOut]

theorem processBatch_err_lookup (sha1 : String → String) (prev : String → Option PrevRec)
    (nowStr : String) (err : String) (batch : List String)
    (out : String → Option AirportStatus) (q : String) :
    processBatch sha1 prev nowStr (Except.error err) batch out q
      = if q ∈ batch then some (errorStatus prev err q) else out q := by
  simp only [processBatch]
  exact foldl_updOut (errorStatus prev err) batch out q

theorem processBatch_ok_lookup (sha1 : String → String) (prev : String → Option PrevRec)
    (nowStr : String) (notams : List Notam) (batch : List String)
    (out : String → Option AirportStatus) (q : String) :
    processBatch sha1 prev nowStr (Except.ok notams) batch out q
      = if q ∈ batch then some (processAirport sha1 prev nowStr notams q) else out q := by
  simp only [processBatch]
  exact foldl_updOut (processAirport sha1 prev nowStr notams) batch out q

theorem buildFrom_not_mem (sha1 : String → String) (prev : String → Option PrevRec)
    (nowStr : String) (fetchRes : Nat → Except String (List Notam)) (q : String) :
    ∀ (bs : List (List String)) (i : Nat) (out : String → Option AirportStatus),
      (∀ b ∈ bs, q ∉ b) →
      buildFrom sha1 prev nowStr fetchRes i bs out q = out q := by
  intro bs
  induction bs with
  | nil => intro i out _; rfl
  | cons b rest ih =>
    intro i out h
    have hb : q ∉ b := h b (List.mem_cons_self b rest)
    have hrest : ∀ b2 ∈ rest, q ∉ b2 := fun b2 hb2 => h b2 (List.mem_cons_of_mem b hb2)
    simp only [buildFrom]
    rw [ih (i + 1) _ hrest]
    cases hres : fetchRes i with
    | error err => rw [processBatch_err_lookup]; simp [hb]
    | ok notams => rw [processBatch_ok_lookup]; simp [hb]

theorem buildFrom_origin (sha1 : String → String) (prev : String → Option PrevRec)
    (nowStr : String) (fetchRes : Nat → Except String (List Notam)) (q : String)
    (st : AirportStatus) :
    ∀ (bs : List (List String)) (i : Nat) (out : String → Option AirportStatus),
      buildFrom sha1 prev nowStr fetchRes i bs out q = some st →
      out q = some st ∨ (∃ err, st = errorStatus prev err q) ∨
        (∃ notams, st = processAirport sha1 prev nowStr notams q) := by
  intro bs
  induction bs with
  | nil => intro i out h; exact Or.inl h
  | cons b rest ih =>
    intro i out h
    simp only [buildFrom] at h
    rcases ih (i + 1) _ h with hpb | hrest
    · cases hres : fetchRes i with
      | error err =>
        rw [hres, processBatch_err_lookup] at hpb
        by_cases hq : q ∈ b
        · rw [if_pos hq] at hpb
          exact Or.inr (Or.inl ⟨err, (Option.some_inj.mp hpb).symm⟩)
        · rw [if_neg hq] at hpb
          exact Or.inl hpb
      | ok notams =>
        rw [hres, processBatch_ok_lookup] at hpb
        by_cases hq : q ∈ b
        · rw [if_pos hq] at hpb
          exact Or.inr (Or.inr ⟨notams, (Option.some_inj.mp hpb).symm⟩)
        · rw [if_neg hq] at hpb
          exact Or.inl hpb
    · exact Or.inr hrest

theorem buildFrom_isSome (sha1 : String → String) (prev : String → Option PrevRec)
    (nowStr : String) (fetchRes : Nat → Except String (List Notam)) (q : String) :
    ∀ (bs : List (List String)) (i : Nat) (out : String → Option AirportStatus),
      ((out q).isSome = true ∨ ∃ b ∈ bs, q ∈ b) →
      (buildFrom sha1 prev nowStr fetchRes i bs out q).isSome = true := by
  intro bs
  induction bs with
  | nil =>
    intro i out h
    rcases h with h | ⟨b, hb, _⟩
    · exact h
    · exact absurd hb (List.not_mem_nil b)
  | cons b rest ih =>
    intro i out h
    simp only [buildFrom]
    apply ih (i + 1)
    by_cases hq : q ∈ b
    · left
      cases hres : fetchRes i with
      | error err => rw [processBatch_err_lookup]; simp [hq]
      | ok notams => rw [processBatch_ok_lookup]; simp [hq]
    · rcases h with h | ⟨b2, hb2, hqb2⟩
      · left
        cases hres : fetchRes i with
        | error err => rw [processBatch_err_lookup]; simp [hq]; exact h
        | ok notams => rw [processBatch_ok_lookup]; simp [hq]; exact h
      · rcases List.mem_cons.mp hb2 with rfl | hb2r
        · exact absurd hqb2 hq
        · exact Or.inr ⟨b2, hb2r, hqb2⟩

theorem buildFrom_err_at (sha1 : String → String) (prev : String → Option PrevRec)
    (nowStr : String) (fetchRes : Nat → Except String (List Notam)) (q err : String) :
    ∀ (bs : List (List String)) (bi i : Nat) (out : String → Option AirportStatus)
      (h : bi < bs.length),
      fetchRes (i + bi) = Except.error err →
      q ∈ bs.get ⟨bi, h⟩ →
      (∀ bj (hj : bj < bs.length), bi < bj → q ∉ bs.get ⟨bj, hj⟩) →
      buildFrom sha1 prev nowStr fetchRes i bs out q = some (errorStatus prev err q) := by
  intro bs
  induction bs with
  | nil => intro bi i out h; exact absurd h (Nat.not_lt_zero bi)
  | cons b rest ih =>
    intro bi i out h hfr hmem hlater
    cases bi with
    | zero =>
      have hq : q ∈ b := hmem
      have hrest : ∀ b2 ∈ rest, q ∉ b2 := by
        intro b2 hb2
        rcases List.mem_iff_get.mp hb2 with ⟨⟨j, hj⟩, hget⟩
        have := hlater (j + 1) (Nat.succ_lt_succ hj) (Nat.succ_pos j)
        rw [List.get_cons_succ] at this
        rw [← hget]
        exact this
      simp only [buildFrom]
      rw [buildFrom_not_mem sha1 prev nowStr fetchRes q rest (i + 1) _ hrest]
      rw [Nat.add_zero] at hfr
      rw [hfr, processBatch_err_lookup]
      simp [hq]
    | succ k =>
      have hk : k < rest.length := Nat.lt_of_succ_lt_succ h
      simp only [buildFrom]
      apply ih k (i + 1) _ hk
      · have : i + 1 + k = i + (k + 1) := by omega
        rw [this]; exact hfr
      · rw [List.get_cons_succ] at hmem; exact hmem
      · intro bj hj hlt
        have := hlater (bj + 1) (Nat.succ_lt_succ hj) (Nat.succ_lt_succ hlt)
        rw [List.get_cons_succ] at this
        exact this

theorem chunkAux_flatten (m : Nat) :
    ∀ (fuel : Nat) (l : List String), l.length ≤ fuel →
      (chunkAux fuel l (m + 1)).flatten = l := by
  intro fuel
  induction fuel with
  | zero =>
    intro l hl
    have : l = [] := List.eq_nil_of_length_eq_zero (Nat.le_zero.mp hl)
    subst this
    simp [chunkAux]
  | succ fuel ih =>
    intro l hl
    cases l with
    | nil => simp [chunkAux]
    | cons a t =>
      simp only [chunkAux, List.flatten_cons]
      rw [ih (List.drop m t) (by simp at hl ⊢; omega)]
      have hdrop : List.drop m t = List.drop (m + 1) (a :: t) := rfl
      rw [hdrop, List.take_append_drop]

theorem chunk_flatten (l : List String) (n : Nat) (hn : 0 < n) :
    (chunk l n).flatten = l := by
  cases n with
  | zero => exact absurd hn (Nat.lt_irrefl 0)
  | succ m => exact chunkAux_flatten m l.length l (Nat.le_refl _)

theorem mem_of_mem_chunk {l : List String} {n : Nat} {b : List String} {q : String}
    (hn : 0 < n) (hb : b ∈ chunk l n) (hq : q ∈ b) : q ∈ l := by
  rw [← chunk_flatten l n hn]
  exact List.mem_flatten.mpr ⟨b, hb, hq⟩

theorem mem_chunk_of_mem {l : List String} {n : Nat} {q : String}
    (hn : 0 < n) (hq : q ∈ l) : ∃ b ∈ chunk l n, q ∈ b := by
  rw [← chunk_flatten l n hn] at hq
  exact List.mem_flatten.mp hq

theorem changedOf_iff (old : Option String) (newHash : String) :
    changedOf old newHash = true ↔
      ∃ h0, old = some h0 ∧ some h0 ≠ some newHash := by
  cases old with
  | none => simp [changedOf]
  | some h0 => simp [changedOf, bne_iff_ne]

theorem foldlMin_mem : ∀ (vs : List Nat) (v : Nat), vs.foldl Nat.min v ∈ v :: vs := by
  intro vs
  induction vs with
  | nil => intro v; simp
  | cons a t ih =>
    intro v
    simp only [List.foldl_cons]
    rcases List.mem_cons.mp (ih (Nat.min v a)) with h1 | h1
    · rw [h1]
      rcases Nat.le_total v a with hle | hle
      · simp [Nat.min_eq_left hle]
      · simp [Nat.min_eq_right hle]
    · exact List.mem_cons_of_mem _ (List.mem_cons_of_mem _ h1)

theorem processAirport_loaded (sha1 : String → String) (prev : String → Option PrevRec)
    (nowStr : String) (notams : List Notam) (icao : String) :
    (processAirport sha1 prev nowStr notams icao).loaded = true := rfl

theorem processAirport_error (sha1 : String → String) (prev : String → Option PrevRec)
    (nowStr : String) (notams : List Notam) (icao : String) :
    (processAirport sha1 prev nowStr notams icao).error = none := rfl

theorem processAirport_changed_iff (sha1 : String → String) (prev : String → Option PrevRec)
    (nowStr : String) (notams : List Notam) (icao : String) :
    (processAirport sha1 prev nowStr notams icao).changed = true ↔
      ∃ h0, prevHash prev icao = some h0 ∧
        some h0 ≠ (processAirport sha1 prev nowStr notams icao).hash := by
  simp only [processAirport]
  exact changedOf_iff _ _

theorem processAirport_last_change (sha1 : String → String) (prev : String → Option PrevRec)
    (nowStr : String) (notams : List Notam) (icao : String) :
    ((processAirport sha1 prev nowStr notams icao).changed = true →
      (processAirport sha1 prev nowStr notams icao).last_change_utc = some nowStr) ∧
    ((processAirport sha1 prev nowStr notams icao).changed = false →
      (processAirport sha1 prev nowStr notams icao).last_change_utc = prevLast prev icao) := by
  simp only [processAirport]
  constructor <;> intro h <;> rw [h] <;> simp

theorem processAirport_green (sha1 : String → String) (prev : String → Option PrevRec)
    (nowStr : String) (notams : List Notam) (icao : String) :
    (processAirport sha1 prev nowStr notams icao).has_snowtam = false →
    (processAirport sha1 prev nowStr notams icao).severity = Sev.green := by
  simp only [processAirport]
  intro h
  simp [h]

theorem build_status_origin (sha1 : String → String) (prev : String → Option PrevRec)
    (nowStr : String) (fetchRes : Nat → Except String (List Notam))
    (batchSize : Nat) (icao_list : List String) (q : String) (st : AirportStatus)
    (h : build_status sha1 prev nowStr fetchRes batchSize icao_list q = some st) :
    (∃ err, st = errorStatus prev err q) ∨
      (∃ notams, st = processAirport sha1 prev nowStr notams q) := by
  rcases buildFrom_origin sha1 prev nowStr fetchRes q st
      (chunk icao_list batchSize) 0 (fun _ => none) h with hnone | h2
  · exact absurd hnone (by simp)
  · exact h2

theorem severity_eq_closed (t : String) (h : matchRunwayClosed t = true) :
    severity_from_text t =
      (Sev.red, { rwycc := none, braking := none, closed := true, keywords := [] }) := by
  simp [severity_from_text, h]

theorem severity_eq_rwycc (t : String) (v : Nat) (vs : List Nat)
    (hc : matchRunwayClosed t = false) (he : extract_rwycc_values t = v :: vs) :
    severity_from_text t =
      (if vs.foldl Nat.min v ≤ 1 then
        (Sev.red, { rwycc := some (v :: vs), braking := none, closed := false, keywords := [] })
      else if vs.foldl Nat.min v ≤ 3 then
        (Sev.orange, { rwycc := some (v :: vs), braking := none, closed := false, keywords := [] })
      else
        (Sev.yellow, { rwycc := some (v :: vs), braking := none, closed := false, keywords := [] })) := by
  simp [severity_from_text, hc, he]

theorem severity_eq_braking (t : String) (b : String)
    (hc : matchRunwayClosed t = false) (he : extract_rwycc_values t = [])
    (hb : matchBraking t = some b) :
    severity_from_text t =
      (if b = "POOR" then
        (Sev.red, { rwycc := none, braking := some b, closed := false, keywords := [] })
      else if b = "MEDIUM" then
        (Sev.orange, { rwycc := none, braking := some b, closed := false, keywords := [] })
      else if b = "GOOD" then
        (Sev.yellow, { rwycc := none, braking := some b, closed := false, keywords := [] })
      else fallbackSeverity t (some b)) := by
  simp [severity_from_text, hc, he, hb]

theorem severity_eq_fallback (t : String)
    (hc : matchRunwayClosed t = false) (he : extract_rwycc_values t = [])
    (hb : matchBraking t = none) :
    severity_from_text t = fallbackSeverity t none := by
  simp [severity_from_text, hc, he, hb]

theorem is_snowtam_like_eq (t : String) :
    is_snowtam_like t =
      (!t.isEmpty && matchSnowHint t && (matchContext t || wordSearch "SNOWTAM" t)) := by
  simp only [is_snowtam_like]
  cases he : t.isEmpty <;> cases hh : matchSnowHint t <;>
    cases hc : matchContext t <;> cases hs : wordSearch "SNOWTAM" t <;> simp_all

/-! ## Claims -/

/-- C1: for every airport record produced by a successful batch (no error
attached), `changed` is true iff a previous fingerprint exists in the prior
snapshot and differs from the newly computed fingerprint; in particular a
first-ever observation (no prior fingerprint) always yields `changed = false`,
regardless of the fetched content. -/
theorem c1_changed_iff (sha1 : String → String) (prev : String → Option PrevRec)
    (nowStr : String) (fetchRes : Nat → Except String (List Notam))
    (batchSize : Nat) (icao_list : List String) (icao : String) (st : AirportStatus)
    (hst : build_status sha1 prev nowStr fetchRes batchSize icao_list icao = some st)
    (hok : st.error = none) :
    (st.changed = true ↔ ∃ h0, prevHash prev icao = some h0 ∧ some h0 ≠ st.hash)
    ∧ (prevHash prev icao = none → st.changed = false) := by
  rcases build_status_origin sha1 prev nowStr fetchRes batchSize icao_list icao st hst with
    ⟨err, rfl⟩ | ⟨ns, rfl⟩
  · exact absurd hok (by simp [errorStatus])
  · constructor
    · exact processAirport_changed_iff sha1 prev nowStr ns icao
    · intro hnone
      cases hc : (processAirport sha1 prev nowStr ns icao).changed with
      | false => rfl
      | true =>
        rcases (processAirport_changed_iff sha1 prev nowStr ns icao).mp hc with ⟨h0, hh0, _⟩
        rw [hnone] at hh0
        exact absurd hh0 (by simp)

/-- C1 witness: with a prior fingerprint `h1` and an empty fetch (fingerprint
sentinel `NO_SNOWTAM`), the record produced for AAAA has `changed = true`. -/
theorem c1_changed_iff_witness :
    ({ loaded := true, has_snowtam := false, severity := Sev.green, changed := true,
       last_change_utc := some "T1", error := none, items := [], evidence := none,
       hash := some "NO_SNOWTAM" } : AirportStatus).changed = true := by
  have hst : build_status (fun s => s)
      (fun s => if s = "AAAA" then some { hash := some "h1", last_change_utc := some "t0" }
                else none)
      "T1" (fun _ => Except.ok []) 5 ["AAAA"] "AAAA"
      = some { loaded := true, has_snowtam := false, severity := Sev.green, changed := true,
               last_change_utc := some "T1", error := none, items := [], evidence := none,
               hash := some "NO_SNOWTAM" } := by decide
  exact (c1_changed_iff (fun s => s)
      (fun s => if s = "AAAA" then some { hash := some "h1", last_change_utc := some "t0" }
                else none)
      "T1" (fun _ => Except.ok []) 5 ["AAAA"] "AAAA" _ hst rfl).1.mpr
    ⟨"h1", by decide, by decide⟩

/-- C2 counterexample: when a batch fetch fails, the record produced has
`has_snowtam = false` but severity `gray`, not `green`, so the claim as
stated (over every record produced by a run) is false. -/
theorem c2_counterexample :
    (Option.map AirportStatus.has_snowtam
        (build_status (fun s => s) (fun _ => none) "T0"
          (fun _ => Except.error "ConnectionError: boom") 1 ["LHBP"] "LHBP")
      = some false)
    ∧ (Option.map AirportStatus.severity
        (build_status (fun s => s) (fun _ => none) "T0"
          (fun _ => Except.error "ConnectionError: boom") 1 ["LHBP"] "LHBP")
      = some Sev.gray)
    ∧ Sev.gray ≠ Sev.green := by decide

/-- C2 (amended): for every record produced by a successful batch (no error
attached), `has_snowtam = false` forces severity `green`, regardless of any
evidence computed along the way. -/
theorem c2_green_when_no_relevant (sha1 : String → String) (prev : String → Option PrevRec)
    (nowStr : String) (fetchRes : Nat → Except String (List Notam))
    (batchSize : Nat) (icao_list : List String) (icao : String) (st : AirportStatus)
    (hst : build_status sha1 prev nowStr fetchRes batchSize icao_list icao = some st)
    (hok : st.error = none) (h : st.has_snowtam = false) :
    st.severity = Sev.green := by
  rcases build_status_origin sha1 prev nowStr fetchRes batchSize icao_list icao st hst with
    ⟨err, rfl⟩ | ⟨ns, rfl⟩
  · exact absurd hok (by simp [errorStatus])
  · exact processAirport_green sha1 prev nowStr ns icao h

/-- C2 witness: a successful empty fetch yields a green record. -/
theorem c2_green_when_no_relevant_witness :
    Option.map AirportStatus.severity
        (build_status (fun s => s) (fun _ => none) "T0"
          (fun _ => Except.ok []) 1 ["LHBP"] "LHBP")
      = some Sev.green := by
  have hst : build_status (fun s => s) (fun _ => none) "T0"
      (fun _ => Except.ok []) 1 ["LHBP"] "LHBP"
      = some { loaded := true, has_snowtam := false, severity := Sev.green, changed := false,
               last_change_utc := none, error := none, items := [], evidence := none,
               hash := some "NO_SNOWTAM" } := by decide
  rw [hst]
  have h := c2_green_when_no_relevant (fun s => s) (fun _ => none) "T0"
      (fun _ => Except.ok []) 1 ["LHBP"] "LHBP" _ hst rfl rfl
  exact congrArg some h

/-- C3 counterexample: the text `RWY CLSD RWYCC 0` contains `RWYCC 0` (its
extracted codes are `[0]`, minimum 0), yet `severity_from_text` returns the
closure evidence with `rwycc = none`, so the codes list does not contain the
matched value as the claim requires. -/
theorem c3_counterexample :
    extract_rwycc_values "RWY CLSD RWYCC 0" = [0]
    ∧ (severity_from_text "RWY CLSD RWYCC 0").1 = Sev.red
    ∧ (severity_from_text "RWY CLSD RWYCC 0").2.rwycc = none := by decide

/-- C3 (amended): for every text with no closure match whose extracted RWYCC
values have minimum at most 1, `severity_from_text` returns red with the
extracted codes as evidence, and that minimum is one of the listed codes. -/
theorem c3_rwycc_red (t : String) (v : Nat) (vs : List Nat)
    (hc : matchRunwayClosed t = false)
    (he : extract_rwycc_values t = v :: vs)
    (hmin : vs.foldl Nat.min v ≤ 1) :
    severity_from_text t =
      (Sev.red, { rwycc := some (v :: vs), braking := none, closed := false, keywords := [] })
    ∧ vs.foldl Nat.min v ∈ v :: vs := by
  constructor
  · simp [severity_from_text, hc, he, hmin]
  · exact foldlMin_mem vs v

/-- C3 witness: `RWYCC 0` scores red with codes `[0]`. -/
theorem c3_rwycc_red_witness :
    severity_from_text "RWYCC 0" =
      (Sev.red, { rwycc := some [0], braking := none, closed := false, keywords := [] })
    ∧ List.foldl Nat.min 0 [] ∈ [0] :=
  c3_rwycc_red "RWYCC 0" 0 [] (by decide) (by decide) (by decide)

/-- C4: every text matching the closure pattern scores red with
`closed = true` and an otherwise empty evidence record: the closure check
short-circuits every remaining check, whatever other signals the text has. -/
theorem c4_closure_red (t : String) (h : matchRunwayClosed t = true) :
    severity_from_text t =
      (Sev.red, { rwycc := none, braking := none, closed := true, keywords := [] }) := by
  simp [severity_from_text, h]

/-- C4 witness: closure examples, including one carrying RWYCC and braking
signals that are all ignored. -/
theorem c4_closure_red_witness :
    severity_from_text "RWY 09 CLSD" =
      (Sev.red, { rwycc := none, braking := none, closed := true, keywords := [] })
    ∧ severity_from_text "AERODROME CLSD" =
      (Sev.red, { rwycc := none, braking := none, closed := true, keywords := [] })
    ∧ severity_from_text "RWYCC 0/0 BRAKING ACTION GOOD RWY 09 CLSD" =
      (Sev.red, { rwycc := none, braking := none, closed := true, keywords := [] }) :=
  ⟨c4_closure_red "RWY 09 CLSD" (by decide),
   c4_closure_red "AERODROME CLSD" (by decide),
   c4_closure_red "RWYCC 0/0 BRAKING ACTION GOOD RWY 09 CLSD" (by decide)⟩

/-- C5: with no closure match and a nonempty extracted code list, the
severity maps the minimum extracted value (at most 1 red, at most 3 orange,
otherwise yellow) with the codes as evidence, taking precedence over the
braking check; and every extracted value lies in the range 0 to 6. -/
theorem c5_rwycc_mapping :
    (∀ (t : String) (v : Nat) (vs : List Nat),
      matchRunwayClosed t = false → extract_rwycc_values t = v :: vs →
      severity_from_text t =
        ((if vs.foldl Nat.min v ≤ 1 then Sev.red
          else if vs.foldl Nat.min v ≤ 3 then Sev.orange
          else Sev.yellow),
         { rwycc := some (v :: vs), braking := none, closed := false, keywords := [] }))
    ∧ (∀ (t : String) (x : Nat), x ∈ extract_rwycc_values t → x ≤ 6) := by
  constructor
  · intro t v vs hc he
    by_cases h1 : vs.foldl Nat.min v ≤ 1
    · simp [severity_from_text, hc, he, h1]
    · by_cases h3 : vs.foldl Nat.min v ≤ 3
      · simp [severity_from_text, hc, he, h1, h3]
      · simp [severity_from_text, hc, he, h1, h3]
  · intro t x hx
    simp only [extract_rwycc_values] at hx
    cases hscan : scanFirst rwyccAt none (upData t) with
    | none => rw [hscan] at hx; simp at hx
    | some vals =>
      rw [hscan] at hx
      rw [List.mem_filter] at hx
      exact of_decide_eq_true hx.2

/-- C5 witness: the scenario text of the specification, where the RWYCC
codes win over the braking word. -/
theorem c5_rwycc_mapping_witness :
    severity_from_text "SNOWTAM 0123 RWYCC 5/5/4 BRAKING ACTION GOOD" =
      (Sev.yellow,
       { rwycc := some [5, 5, 4], braking := none, closed := false, keywords := [] }) := by
  have h := c5_rwycc_mapping.1 "SNOWTAM 0123 RWYCC 5/5/4 BRAKING ACTION GOOD" 5 [5, 4]
    (by decide) (by decide)
  exact h.trans (by decide)

/-- C6: the classifier returns true only if the text has a winter-vocabulary
hint and either a runway/operational context marker or an explicit SNOWTAM
word; consequently any text without context marker and without SNOWTAM word
is rejected, and in particular the bare text `SNOW` is rejected. -/
theorem c6_classifier :
    (∀ t, is_snowtam_like t = true →
      matchSnowHint t = true ∧ (matchContext t = true ∨ wordSearch "SNOWTAM" t = true))
    ∧ (∀ t, matchContext t = false → wordSearch "SNOWTAM" t = false →
        is_snowtam_like t = false)
    ∧ is_snowtam_like "SNOW" = false := by
  refine ⟨?_, ?_, by decide⟩
  · intro t h
    rw [is_snowtam_like_eq] at h
    simp only [Bool.and_eq_true, Bool.or_eq_true] at h
    exact ⟨h.1.2, h.2⟩
  · intro t hc hs
    rw [is_snowtam_like_eq, hc, hs]
    simp

/-- C6 witness: a winter-vocabulary text with no context marker and no
SNOWTAM word is rejected. -/
theorem c6_classifier_witness :
    is_snowtam_like "SNOW DRIFTS NEAR TOWN" = false :=
  c6_classifier.2.1 "SNOW DRIFTS NEAR TOWN" (by decide) (by decide)

/-- C7: when the fetch of the batch holding an airport fails (and no later
batch holds that airport again), the run still completes and that airport
gets the degraded record: `loaded = true`, severity `gray`,
`changed = false`, fingerprint and last-change carried forward unchanged
from the previous snapshot, and the error message attached; no severity
scoring contributes to the record. -/
theorem c7_fetch_failure (sha1 : String → String) (prev : String → Option PrevRec)
    (nowStr : String) (fetchRes : Nat → Except String (List Notam))
    (batchSize : Nat) (icao_list : List String) (err icao : String) (bi : Nat)
    (hbi : bi < (chunk icao_list batchSize).length)
    (hfr : fetchRes bi = Except.error err)
    (hmem : icao ∈ (chunk icao_list batchSize).get ⟨bi, hbi⟩)
    (hlater : ∀ bj (hj : bj < (chunk icao_list batchSize).length), bi < bj →
      icao ∉ (chunk icao_list batchSize).get ⟨bj, hj⟩) :
    build_status sha1 prev nowStr fetchRes batchSize icao_list icao =
      some { loaded := true, has_snowtam := false, severity := Sev.gray, changed := false,
             last_change_utc := prevLast prev icao, error := some err, items := [],
             evidence := none, hash := prevHash prev icao } := by
  exact buildFrom_err_at sha1 prev nowStr fetchRes icao err
    (chunk icao_list batchSize) bi 0 (fun _ => none) hbi
    (by rw [Nat.zero_add]; exact hfr) hmem hlater

/-- C7 witness: the specification scenario, a failing batch of three
airports with prior fingerprints h1, h2 and NO_SNOWTAM; the CCCC record
keeps its prior fingerprint and gray severity. -/
theorem c7_fetch_failure_witness :
    build_status (fun s => s)
      (fun s => if s = "AAAA" then some { hash := some "h1", last_change_utc := some "t1" }
        else if s = "BBBB" then some { hash := some "h2", last_change_utc := none }
        else if s = "CCCC" then some { hash := some "NO_SNOWTAM", last_change_utc := none }
        else none)
      "T1" (fun _ => Except.error "RuntimeError: boom") 5 ["AAAA", "BBBB", "CCCC"] "CCCC"
      = some { loaded := true, has_snowtam := false, severity := Sev.gray, changed := false,
               last_change_utc := none, error := some "RuntimeError: boom", items := [],
               evidence := none, hash := some "NO_SNOWTAM" } := by
  have hlen : (chunk ["AAAA", "BBBB", "CCCC"] 5).length = 1 := by decide
  have h := c7_fetch_failure (fun s => s)
    (fun s => if s = "AAAA" then some { hash := some "h1", last_change_utc := some "t1" }
      else if s = "BBBB" then some { hash := some "h2", last_change_utc := none }
      else if s = "CCCC" then some { hash := some "NO_SNOWTAM", last_change_utc := none }
      else none)
    "T1" (fun _ => Except.error "RuntimeError: boom") 5 ["AAAA", "BBBB", "CCCC"]
    "RuntimeError: boom" "CCCC" 0 (of_decide_eq_true rfl) rfl (of_decide_eq_true rfl)
    (fun bj hj hlt => absurd hlt (by omega))
  exact h.trans (by decide)

/-- C8: for every airport record produced by a successful batch, the
last-change timestamp is the current run time exactly when `changed` is
true, and otherwise is carried forward unchanged from the prior snapshot. -/
theorem c8_last_change (sha1 : String → String) (prev : String → Option PrevRec)
    (nowStr : String) (fetchRes : Nat → Except String (List Notam))
    (batchSize : Nat) (icao_list : List String) (icao : String) (st : AirportStatus)
    (hst : build_status sha1 prev nowStr fetchRes batchSize icao_list icao = some st)
    (hok : st.error = none) :
    (st.changed = true → st.last_change_utc = some nowStr)
    ∧ (st.changed = false → st.last_change_utc = prevLast prev icao) := by
  rcases build_status_origin sha1 prev nowStr fetchRes batchSize icao_list icao st hst with
    ⟨err, rfl⟩ | ⟨ns, rfl⟩
  · exact absurd hok (by simp [errorStatus])
  · exact processAirport_last_change sha1 prev nowStr ns icao

/-- C8 witness: a changed airport gets the run timestamp as last change. -/
theorem c8_last_change_witness :
    Option.map AirportStatus.last_change_utc
        (build_status (fun s => s)
          (fun s => if s = "AAAA" then some { hash := some "h1", last_change_utc := some "t0" }
                    else none)
          "T1" (fun _ => Except.ok []) 5 ["AAAA"] "AAAA")
      = some (some "T1") := by
  have hst : build_status (fun s => s)
      (fun s => if s = "AAAA" then some { hash := some "h1", last_change_utc := some "t0" }
                else none)
      "T1" (fun _ => Except.ok []) 5 ["AAAA"] "AAAA"
      = some { loaded := true, has_snowtam := false, severity := Sev.green, changed := true,
               last_change_utc := some "T1", error := none, items := [], evidence := none,
               hash := some "NO_SNOWTAM" } := by decide
  rw [hst]
  have h := (c8_last_change (fun s => s)
      (fun s => if s = "AAAA" then some { hash := some "h1", last_change_utc := some "t0" }
                else none)
      "T1" (fun _ => Except.ok []) 5 ["AAAA"] "AAAA" _ hst rfl).1 rfl
  exact congrArg some h

/-- C9: `severity_from_text` always returns red, orange or yellow (never
green and never gray); and in the keyword fallback (no closure, no codes, no
braking match) it returns red when POOR, UNUSABLE or UNSAFE appears as a
whole word, orange when MEDIUM or MODERATE appears, and yellow otherwise. -/
theorem c9_sev_range :
    (∀ t, (severity_from_text t).1 = Sev.red ∨ (severity_from_text t).1 = Sev.orange ∨
      (severity_from_text t).1 = Sev.yellow)
    ∧ (∀ t, matchRunwayClosed t = false → extract_rwycc_values t = [] →
        matchBraking t = none →
        ((wordSearch "POOR" t || wordSearch "UNUSABLE" t || wordSearch "UNSAFE" t) = true →
          (severity_from_text t).1 = Sev.red)
        ∧ ((wordSearch "POOR" t || wordSearch "UNUSABLE" t || wordSearch "UNSAFE" t) = false →
            (wordSearch "MEDIUM" t || wordSearch "MODERATE" t) = true →
            (severity_from_text t).1 = Sev.orange)
        ∧ ((wordSearch "POOR" t || wordSearch "UNUSABLE" t || wordSearch "UNSAFE" t) = false →
            (wordSearch "MEDIUM" t || wordSearch "MODERATE" t) = false →
            (severity_from_text t).1 = Sev.yellow)) := by
  have hf : ∀ t br, (fallbackSeverity t br).1 = Sev.red ∨
      (fallbackSeverity t br).1 = Sev.orange ∨ (fallbackSeverity t br).1 = Sev.yellow := by
    intro t br
    unfold fallbackSeverity
    split_ifs <;> simp
  constructor
  · intro t
    by_cases hc : matchRunwayClosed t = true
    · rw [severity_eq_closed t hc]
      simp
    · rw [Bool.not_eq_true] at hc
      cases he : extract_rwycc_values t with
      | cons v vs =>
        rw [severity_eq_rwycc t v vs hc he]
        split_ifs <;> simp
      | nil =>
        cases hb : matchBraking t with
        | some b =>
          rw [severity_eq_braking t b hc he hb]
          split_ifs <;> first | simp | exact hf t (some b)
        | none =>
          rw [severity_eq_fallback t hc he hb]
          exact hf t none
  · intro t hc he hb
    have hexp : severity_from_text t = fallbackSeverity t none := by
      simp [severity_from_text, hc, he, hb]
    refine ⟨?_, ?_, ?_⟩
    · intro h1
      rw [hexp]
      simp [fallbackSeverity, h1]
    · intro h1 h2
      rw [hexp]
      simp [fallbackSeverity, h1, h2]
    · intro h1 h2
      rw [hexp]
      simp [fallbackSeverity, h1, h2]

/-- C9 witness: a text reaching the keyword fallback with POOR present
scores red. -/
theorem c9_sev_range_witness :
    (severity_from_text "TWY POOR CONDITIONS").1 = Sev.red :=
  (c9_sev_range.2 "TWY POOR CONDITIONS" (by decide) (by decide) (by decide)).1 (by decide)

/-- C10: with a positive batch size, the output mapping holds exactly one
record for every identifier of the input list (every such record has
`loaded = true`, whether its batch fetch succeeded or failed) and no record
for any other identifier. -/
theorem c10_totality (sha1 : String → String) (prev : String → Option PrevRec)
    (nowStr : String) (fetchRes : Nat → Except String (List Notam))
    (batchSize : Nat) (icao_list : List String) (hbs : 0 < batchSize) :
    (∀ icao ∈ icao_list, ∃ st,
      build_status sha1 prev nowStr fetchRes batchSize icao_list icao = some st
      ∧ st.loaded = true)
    ∧ (∀ icao, icao ∉ icao_list →
        build_status sha1 prev nowStr fetchRes batchSize icao_list icao = none) := by
  constructor
  · intro icao hmem
    rcases mem_chunk_of_mem hbs hmem with ⟨b, hb, hqb⟩
    have hsome := buildFrom_isSome sha1 prev nowStr fetchRes icao
      (chunk icao_list batchSize) 0 (fun _ => none) (Or.inr ⟨b, hb, hqb⟩)
    rcases Option.isSome_iff_exists.mp hsome with ⟨st, hst⟩
    refine ⟨st, hst, ?_⟩
    rcases build_status_origin sha1 prev nowStr fetchRes batchSize icao_list icao st hst with
      ⟨err, rfl⟩ | ⟨ns, rfl⟩
    · rfl
    · rfl
  · intro icao hnmem
    exact buildFrom_not_mem sha1 prev nowStr fetchRes icao
      (chunk icao_list batchSize) 0 (fun _ => none)
      (fun b hb hq => hnmem (mem_of_mem_chunk hbs hb hq))

/-- C10 witness: an identifier outside the input list has no record. -/
theorem c10_totality_witness :
    build_status (fun s => s) (fun _ => none) "T0" (fun _ => Except.ok []) 1
      ["AAAA", "BBBB"] "ZZZZ" = none :=
  (c10_totality (fun s => s) (fun _ => none) "T0" (fun _ => Except.ok []) 1
    ["AAAA", "BBBB"] (by decide)).2 "ZZZZ" (by decide)

end Snowtam
